import Mathlib

/-!
Verification of the zendure energy-balancing controller.

Shallow embedding of the core control algorithms of the repository:

* `calculate_new_settings` — the zero-feed-in setpoint calculation
  (`src/run_schedule/zero_feed_in_controller.py` lines 587-670, duplicated as
  `AutomateController._calculate_new_settings` in
  `src/automate/device_controller.py` lines 947-1026; both copies are
  line-for-line identical in their arithmetic).
* `build_device_properties` / `send_power_feed` — the device write pipeline of
  `src/automate/device_controller.py` (`_build_device_properties` lines
  778-823, `_send_power_feed` lines 863-941, modelling the
  non-test-mode path in which the HTTP POST succeeds).
* `find_current_schedule_value` — schedule resolution
  (`src/run_schedule/automate.py` lines 212-255).
* `accumulate_with_boundary` — the time-weighted energy accumulator
  (`PowerAccumulator._accumulate_with_boundary`,
  `src/automate/device_controller.py` lines 324-392), with Python floats
  modelled as exact rationals.
* `accumulate_p1_hourly` — the hourly cumulative-meter delta ledger
  (`PowerAccumulator.accumulate_p1_reading_hourly`, lines 545-646).
* `check_battery_limits` / `limit_guard` — the battery limit guard
  (`AutomateController.check_battery_limits` lines 826-861, thresholds
  being the module globals 20/95, and the veto in `_send_power_feed`
  lines 877-886).

Machine integers in the Python source are unbounded `int`s, so they are
modelled as `Int`.  Python `abs` is `iabs`.  The `int(round(...))` at the end
of `_calculate_new_settings` is the identity on the integer values involved
and is therefore omitted.
-/

namespace Zendure

/-- Python `abs` on integers. -/
def iabs (x : Int) : Int := if x < 0 then -x else x

/-! Module constants of `zero_feed_in_controller.py` (lines 56-63) and the
class constants of `AutomateController` (lines 732-739); the two copies agree. -/

def POWER_FEED_MIN : Int := -800
def POWER_FEED_MAX : Int := 1200
def POWER_FEED_MIN_THRESHOLD : Int := 30
def POWER_FEED_MIN_DELTA : Int := 50
def MIN_CHARGE_LEVEL : Int := 20
def MAX_CHARGE_LEVEL : Int := 90

/-- Constants of `src/automate/device_controller.py` lines 28-29. -/
def MAX_DISCHARGE_POWER : Int := 800
def MAX_CHARGE_POWER : Int := 1200

/-! ## Zero feed-in calculation (`_calculate_new_settings`)

The body is a sequence of reassignments of `effective_desired`; each stage is
its own definition so that theorems can speak about intermediate values, and
`calculate_new_settings` chains them in source order. -/

/-- Source line 630: `effective_current = current_output - current_input`. -/
def effective_current (current_input current_output : Int) : Int :=
  current_output - current_input

/-- Battery-level gating (source lines 634-642): skipped when
`electric_level` is `None`; otherwise the two `if`s fire in sequence on the
(possibly already zeroed) desired value. -/
def soc_gate (electric_level : Option Int) (d : Int) : Int :=
  match electric_level with
  | none => d
  | some lvl =>
    let d1 := if lvl > MAX_CHARGE_LEVEL ∧ d < 0 then 0 else d
    if lvl < MIN_CHARGE_LEVEL ∧ d1 > 0 then 0 else d1

/-- Clamp to `[POWER_FEED_MIN, POWER_FEED_MAX]` (source line 645). -/
def clamp_feed (d : Int) : Int :=
  max POWER_FEED_MIN (min POWER_FEED_MAX d)

/-- Minimum absolute threshold (source lines 649-650). -/
def deadband (d : Int) : Int :=
  if iabs d < POWER_FEED_MIN_THRESHOLD then 0 else d

/-- Minimum delta threshold against the current feed (source lines 654-656). -/
def hysteresis (c d : Int) : Int :=
  if iabs (d - c) < POWER_FEED_MIN_DELTA then c else d

/-- Reconstruction of `(new_input, new_output)` (source lines 660-670). -/
def decompose (d : Int) : Int × Int :=
  if d > 0 then (0, d)
  else if d < 0 then (iabs d, 0)
  else (0, 0)

/-- Embeds `_calculate_new_settings(p1_power, current_input, current_output,
electric_level)` — the full pipeline, stages in source order (the `None`
coalescing of the current limits at lines 624-627 is handled by the caller
passing concrete integers). -/
def calculate_new_settings (p1_power current_input current_output : Int)
    (electric_level : Option Int) : Int × Int :=
  let c := effective_current current_input current_output
  decompose (hysteresis c (deadband (clamp_feed (soc_gate electric_level (c + p1_power)))))

/-- Net effective feed encoded by a returned `(input, output)` pair. -/
def eff (r : Int × Int) : Int := r.2 - r.1

/-! ## Device write pipeline (`src/automate/device_controller.py`)

`DeviceProps` is the `properties` dict of a `/properties/write` request:
`acMode` is `none` when the dict omits the key (the zero branch at source
lines 817-823 sends only the limits, leaving the device's mode untouched by
partial-update semantics). -/

structure DeviceProps where
  acMode : Option Int
  inputLimit : Int
  outputLimit : Int
  smartMode : Int
  deriving DecidableEq, Repr

/-- Embeds `_build_device_properties(power_feed, stand_by)` (source lines 778-823);
`previous_power` is `self.previous_power`, consulted at line 789. -/
def build_device_properties (previous_power : Option Int) (power_feed : Int)
    (stand_by : Bool) : DeviceProps :=
  let sb := if previous_power = some 1 then true else stand_by
  if power_feed > 1 then ⟨some 1, iabs power_feed, 0, 1⟩
  else if power_feed < -1 then ⟨some 2, 0, iabs power_feed, 1⟩
  else if sb then ⟨some 0, 0, 0, 1⟩
  else ⟨none, 0, 0, 1⟩

/-- The battery-limit veto at the top of `_send_power_feed`
(source lines 877-886). -/
def limit_guard (limit_state power_feed : Int) : Int :=
  let pf := if power_feed > 0 ∧ limit_state = 1 then 0 else power_feed
  if pf < 0 ∧ limit_state = -1 then 0 else pf

/-- The absolute power ceilings in `_send_power_feed` (source lines 888-893). -/
def ceiling_clamp (pf : Int) : Int :=
  let pf := if pf < -MAX_DISCHARGE_POWER then -MAX_DISCHARGE_POWER else pf
  if pf > MAX_CHARGE_POWER then MAX_CHARGE_POWER else pf

/-- Embeds `_send_power_feed(power_feed)` (source lines 863-941), modelling the
real-device path in which the HTTP POST succeeds: returns the updated
`previous_power` and the write that was sent, `none` when the unchanged-value
check at lines 896-900 skips the device update. -/
def send_power_feed (previous_power : Option Int) (limit_state power_feed : Int) :
    Option Int × Option DeviceProps :=
  let pf := ceiling_clamp (limit_guard limit_state power_feed)
  if previous_power = some pf then (previous_power, none)
  else (some pf, some (build_device_properties previous_power pf false))

/-- Applies a sequence of setpoints through `set_power(int)` →
`_send_power_feed` (no sign conversion, source lines 1137-1140), collecting
the device writes that were actually issued. -/
def run_sequence (previous_power : Option Int) (limit_state : Int) :
    List Int → List DeviceProps
  | [] => []
  | v :: vs =>
    match send_power_feed previous_power limit_state v with
    | (p, none) => run_sequence p limit_state vs
    | (p, some w) => w :: run_sequence p limit_state vs

/-! ## Schedule resolution (`src/run_schedule/automate.py` lines 212-255)

Entries are `(time, value)` pairs whose time keys have already been converted
to integers (the Python converts `int(entry['time'])` and `int(current_time)`
and drops unconvertible entries; the claims only involve convertible keys). -/

/-- Python `max(..., key=lambda x: x[0])`: the first element of maximal key. -/
def pick_max (x : Int × Int) (xs : List (Int × Int)) : Int × Int :=
  xs.foldl (fun acc e => if acc.1 < e.1 then e else acc) x

/-- Embeds `find_current_schedule_value(resolved, current_time)`: filter entries with
time ≤ now, return the value of the entry with the maximum time, `none` when
no entry qualifies. -/
def find_current_schedule_value (resolved : List (Int × Int))
    (current_time : Int) : Option Int :=
  match resolved.filter (fun e => e.1 ≤ current_time) with
  | [] => none
  | x :: xs => some (pick_max x xs).2

/-! ## Time-weighted energy accumulator
(`PowerAccumulator._accumulate_with_boundary`,
`src/automate/device_controller.py` lines 324-392)

Python floats are modelled as exact rationals.  The middle component of the
result is the closed old-period total (the accumulator value logged at source
lines 370-376 immediately before the reset at line 379), `none` when no
boundary was crossed. -/

/-- Embeds `_accumulate_with_boundary(acc, lastValue, lastPeriod, currentPeriod,
timeToBoundary, totalTimeDelta)`; `timeToBoundary` is
`(boundary_time_func(last_update_time) - last_update_time)` in hours and
`totalTimeDelta` the full elapsed hours. -/
def accumulate_with_boundary (acc lastValue : ℚ) (lastPeriod : Option Int)
    (currentPeriod : Int) (timeToBoundary totalTimeDelta : ℚ) :
    ℚ × Option ℚ × Int :=
  match lastPeriod with
  | none => (acc + lastValue * totalTimeDelta, none, currentPeriod)
  | some lp =>
    if lp ≠ currentPeriod then
      let closed := acc + lastValue * timeToBoundary
      let remaining := totalTimeDelta - timeToBoundary
      let newAcc : ℚ := if remaining > 0 then 0 + lastValue * remaining else 0
      (newAcc, some closed, currentPeriod)
    else
      (acc + lastValue * totalTimeDelta, none, lp)

/-- Hour of a time given in seconds of day (Python `now.hour`). -/
def hour_of (t : Nat) : Int := (t / 3600 : Nat)

/-- Embeds `hour_boundary_time(last_time)` (source lines 461-463): the next full
hour after `t`, in seconds of day. -/
def hour_boundary_time (t : Nat) : Nat := (t / 3600 + 1) * 3600

/-- The hour-window invocation of `_accumulate_with_boundary` inside
`_accumulate_value` (source lines 460-475): time deltas in hours derived
from second-resolution timestamps. -/
def accumulate_hour (acc lastValue : ℚ) (lastHour : Option Int)
    (lastTime now : Nat) : ℚ × Option ℚ × Int :=
  let totalDelta : ℚ := ((now : ℚ) - (lastTime : ℚ)) / 3600
  let toBoundary : ℚ := ((hour_boundary_time lastTime : ℚ) - (lastTime : ℚ)) / 3600
  accumulate_with_boundary acc lastValue lastHour (hour_of now) toBoundary totalDelta

/-! ## Hourly cumulative-meter ledger
(`PowerAccumulator.accumulate_p1_reading_hourly`,
`src/automate/device_controller.py` lines 545-646) -/

/-- The hourly-ledger part of `PowerAccumulator`'s state:
`reference` is `p1_hourly_reference` (`none` when absent, e.g. when
`_load_p1_hourly_data` found no persisted metadata), `lastResetHour` is
`p1_hourly_last_reset_hour`, and `ledger` models `p1_hourly_data` as
`(day, hour, import_delta_kwh, export_delta_kwh)` records. -/
structure P1HourlyState where
  reference : Option (ℚ × ℚ)
  lastResetHour : Option Int
  ledger : List (Int × Int × ℚ × ℚ)

/-- Embeds `accumulate_p1_reading_hourly(import_kwh, export_kwh, _)` (source lines
545-646); `day`/`hour` stand for the current date and `now.hour`.  Returns
the new state and the `(import_delta, export_delta)` computed at lines
581-582, `none` when the re-seed branch at lines 566-578 returns early. -/
def accumulate_p1_hourly (st : P1HourlyState) (importKwh exportKwh : ℚ)
    (day hour : Int) : P1HourlyState × Option (ℚ × ℚ) :=
  match st.reference with
  | none =>
    ({ reference := some (importKwh, exportKwh), lastResetHour := some hour,
       ledger := st.ledger }, none)
  | some (ri, re) =>
    if ri = 0 ∨ re = 0 then
      ({ reference := some (importKwh, exportKwh), lastResetHour := some hour,
         ledger := st.ledger }, none)
    else
      let importDelta := importKwh - ri
      let exportDelta := exportKwh - re
      let shouldReset : Bool :=
        match st.lastResetHour with
        | none => true
        | some lrh => lrh != hour
      if shouldReset then
        let storePlace :=
          match st.lastResetHour with
          | some lrh => (if hour = 0 ∧ lrh = 23 then day - 1 else day, lrh)
          | none => (day, hour)
        ({ reference := some (importKwh, exportKwh), lastResetHour := some hour,
           ledger := (storePlace.1, storePlace.2, importDelta, exportDelta) :: st.ledger },
         some (importDelta, exportDelta))
      else
        (st, some (importDelta, exportDelta))

/-! ## Battery limit guard
(`AutomateController.check_battery_limits`,
`src/automate/device_controller.py` lines 826-861, identical in
`src/run_schedule/device_controller.py` lines 263-298)

`check_battery_limits` compares against the BARE names
`MIN_CHARGE_LEVEL`/`MAX_CHARGE_LEVEL`; inside a Python method a bare name
resolves to the MODULE globals (automate lines 26-27, run_schedule lines
25-26), i.e. 20/95 — not to the `AutomateController` class attributes
20/90 that `_calculate_new_settings` reads via `self.`.  The following
namespace holds those module globals. -/

namespace DeviceControllerGlobals

/-- Module global `MIN_CHARGE_LEVEL = 20` of `device_controller.py`. -/
def MIN_CHARGE_LEVEL : Int := 20

/-- Module global `MAX_CHARGE_LEVEL = 95` of `device_controller.py`. -/
def MAX_CHARGE_LEVEL : Int := 95

end DeviceControllerGlobals

/-- Embeds `check_battery_limits()`: the read outcome is `none` when
`read_zendure()` returned nothing, `some none` when the properties lack
`electricLevel`, and `some (some lvl)` otherwise; result is the new
`limit_state`.  The thresholds are the module globals 20/95 (see above). -/
def check_battery_limits (zendure_read : Option (Option Int)) : Int :=
  match zendure_read with
  | none => 0
  | some none => 0
  | some (some battery_level) =>
    if battery_level ≤ DeviceControllerGlobals.MIN_CHARGE_LEVEL then -1
    else if battery_level ≥ DeviceControllerGlobals.MAX_CHARGE_LEVEL then 1
    else 0

end Zendure

namespace Zendure

/-! ### Stage lemmas for the zero feed-in pipeline -/

lemma soc_gate_id (s d : Int) (hmax : ¬(s > MAX_CHARGE_LEVEL ∧ d < 0))
    (hmin : ¬(s < MIN_CHARGE_LEVEL ∧ d > 0)) : soc_gate (some s) d = d := by
  simp only [soc_gate, MAX_CHARGE_LEVEL, MIN_CHARGE_LEVEL] at *
  split_ifs <;> omega

lemma clamp_feed_id (d : Int) (h1 : POWER_FEED_MIN ≤ d) (h2 : d ≤ POWER_FEED_MAX) :
    clamp_feed d = d := by
  simp only [clamp_feed, POWER_FEED_MIN, POWER_FEED_MAX] at *
  omega

lemma deadband_id (d : Int) (h : POWER_FEED_MIN_THRESHOLD ≤ iabs d) :
    deadband d = d := by
  simp only [deadband, iabs, POWER_FEED_MIN_THRESHOLD] at *
  split_ifs at * <;> omega

lemma hysteresis_id (c d : Int) (h : POWER_FEED_MIN_DELTA ≤ iabs (d - c)) :
    hysteresis c d = d := by
  simp only [hysteresis, iabs, POWER_FEED_MIN_DELTA] at *
  split_ifs at * <;> omega

lemma decompose_pos (d : Int) (h : 0 < d) : decompose d = (0, d) := by
  simp only [decompose]
  split_ifs <;> first | rfl | (exfalso; omega)

lemma decompose_neg (d : Int) (h : d < 0) : decompose d = (iabs d, 0) := by
  simp only [decompose]
  split_ifs <;> first | rfl | (exfalso; omega)

lemma eff_decompose (d : Int) : eff (decompose d) = d := by
  simp only [decompose, eff, iabs]
  split_ifs <;> simp <;> omega

/-- C1: with grid power `g`, current limits `(i, o)` and SoC `s`, the
algorithm forms `effectiveCurrent = o - i` and
`effectiveDesired = effectiveCurrent + g`; when that value passes SoC gating,
clamping, deadband and hysteresis unchanged, the result is
`(0, effectiveDesired)` for a positive desired feed and
`(|effectiveDesired|, 0)` for a negative one; in particular
`g = 250, (i, o) = (0, 100), s = 50` yields `(0, 350)`. -/
theorem zeroFeedIn_passthrough (g i o s : Int)
    (hmax : ¬(s > MAX_CHARGE_LEVEL ∧ effective_current i o + g < 0))
    (hmin : ¬(s < MIN_CHARGE_LEVEL ∧ effective_current i o + g > 0))
    (hclamp : POWER_FEED_MIN ≤ effective_current i o + g ∧
      effective_current i o + g ≤ POWER_FEED_MAX)
    (hdead : POWER_FEED_MIN_THRESHOLD ≤ iabs (effective_current i o + g))
    (hhyst : POWER_FEED_MIN_DELTA ≤
      iabs (effective_current i o + g - effective_current i o)) :
    (0 < effective_current i o + g →
      calculate_new_settings g i o (some s) = (0, effective_current i o + g)) ∧
    (effective_current i o + g < 0 →
      calculate_new_settings g i o (some s) =
        (iabs (effective_current i o + g), 0)) ∧
    calculate_new_settings 250 0 100 (some 50) = (0, 350) := by
  have hpipe : calculate_new_settings g i o (some s) =
      decompose (effective_current i o + g) := by
    rw [calculate_new_settings, soc_gate_id _ _ hmax hmin,
      clamp_feed_id _ hclamp.1 hclamp.2, deadband_id _ hdead,
      hysteresis_id _ _ hhyst]
  exact ⟨fun hs => by rw [hpipe, decompose_pos _ hs],
    fun hs => by rw [hpipe, decompose_neg _ hs], by decide⟩

/-- Witness for `zeroFeedIn_passthrough` at the spec's end-to-end scenario:
grid +250 W, limits (0, 100), SoC 50. -/
theorem zeroFeedIn_passthrough_witness :
    calculate_new_settings 250 0 100 (some 50) = (0, effective_current 0 100 + 250) :=
  (zeroFeedIn_passthrough 250 0 100 50 (by decide) (by decide) (by decide)
    (by decide) (by decide)).1 (by decide)

/-! ### Further stage lemmas -/

lemma decompose_nonneg_fst (d : Int) (h : 0 ≤ d) : (decompose d).1 = 0 := by
  simp only [decompose]
  split_ifs <;> first | rfl | (exfalso; omega)

lemma decompose_nonpos_snd (d : Int) (h : d ≤ 0) : (decompose d).2 = 0 := by
  simp only [decompose]
  split_ifs <;> first | rfl | (exfalso; omega)

lemma hysteresis_from_zero (c : Int) :
    hysteresis c 0 = if iabs c < POWER_FEED_MIN_DELTA then c else 0 := by
  simp only [hysteresis, iabs, POWER_FEED_MIN_DELTA]
  split_ifs <;> omega

lemma calc_after_desired_zero (g i o : Int) (lvl : Option Int)
    (hz : deadband (clamp_feed (soc_gate lvl (effective_current i o + g))) = 0) :
    calculate_new_settings g i o lvl =
      decompose (hysteresis (effective_current i o) 0) := by
  simp only [calculate_new_settings]
  rw [hz]

lemma soc_gate_fires_max (s d : Int) (hs : MAX_CHARGE_LEVEL < s) (hd : d < 0) :
    soc_gate (some s) d = 0 := by
  simp only [soc_gate, MAX_CHARGE_LEVEL, MIN_CHARGE_LEVEL] at *
  split_ifs <;> omega

lemma soc_gate_fires_min (s d : Int) (hs : s < MIN_CHARGE_LEVEL) (hd : 0 < d) :
    soc_gate (some s) d = 0 := by
  simp only [soc_gate, MAX_CHARGE_LEVEL, MIN_CHARGE_LEVEL] at *
  split_ifs <;> omega

/-- C3 counterexample: SoC gating is NOT inclusive at the boundary.  At
`soc = MAX_CHARGE_LEVEL = 90` with a desired charge (`effectiveDesired =
-300 < 0`), `_calculate_new_settings` returns `inputLimit = 300`, a charging
command, because the source tests `electric_level > MAX_CHARGE_LEVEL`
(strict), not `≥`. -/
theorem socGate_boundary_cex :
    MAX_CHARGE_LEVEL = 90 ∧ effective_current 0 0 + (-300) < 0 ∧
    (calculate_new_settings (-300) 0 0 (some 90)).1 = 300 := by decide

/-- C3 amended: SoC gating is exclusive at the boundaries.  When
`soc > maxChargeLevel` and the desired feed would charge, the result's
effective feed is 0 or the unchanged `effectiveCurrent` (hysteresis may keep
a small existing feed); in particular no charging command when the device is
not already charging.  Symmetrically for `soc < minChargeLevel` and a
would-discharge.  At `soc` exactly equal to a boundary the gate does not
fire (see `socGate_boundary_cex`). -/
theorem socGate_exclusive (g i o s : Int) :
    (MAX_CHARGE_LEVEL < s → effective_current i o + g < 0 →
      (eff (calculate_new_settings g i o (some s)) = 0 ∨
        eff (calculate_new_settings g i o (some s)) = effective_current i o) ∧
      (0 ≤ effective_current i o → (calculate_new_settings g i o (some s)).1 = 0)) ∧
    (s < MIN_CHARGE_LEVEL → 0 < effective_current i o + g →
      (eff (calculate_new_settings g i o (some s)) = 0 ∨
        eff (calculate_new_settings g i o (some s)) = effective_current i o) ∧
      (effective_current i o ≤ 0 → (calculate_new_settings g i o (some s)).2 = 0)) := by
  have core : soc_gate (some s) (effective_current i o + g) = 0 →
      (eff (calculate_new_settings g i o (some s)) = 0 ∨
        eff (calculate_new_settings g i o (some s)) = effective_current i o) ∧
      (0 ≤ effective_current i o → (calculate_new_settings g i o (some s)).1 = 0) ∧
      (effective_current i o ≤ 0 → (calculate_new_settings g i o (some s)).2 = 0) := by
    intro hz
    have hdz : deadband (clamp_feed (soc_gate (some s)
        (effective_current i o + g))) = 0 := by
      rw [hz]; decide
    have hcalc := calc_after_desired_zero g i o (some s) hdz
    rw [hcalc, hysteresis_from_zero]
    by_cases hc : iabs (effective_current i o) < POWER_FEED_MIN_DELTA
    · rw [if_pos hc]
      exact ⟨Or.inr (eff_decompose _), fun h0 => decompose_nonneg_fst _ h0,
        fun h0 => decompose_nonpos_snd _ h0⟩
    · rw [if_neg hc]
      exact ⟨Or.inl (eff_decompose _), fun _ => rfl, fun _ => rfl⟩
  exact ⟨fun hs hd =>
      have h := core (soc_gate_fires_max s _ hs hd); ⟨h.1, h.2.1⟩,
    fun hs hd =>
      have h := core (soc_gate_fires_min s _ hs hd); ⟨h.1, h.2.2⟩⟩

/-- Witness for `socGate_exclusive`: SoC 95 (above the maximum), currently
charging at 40 W, grid -140 W; gating zeroes the desired charge and
hysteresis keeps the small existing charge. -/
theorem socGate_exclusive_witness :
    eff (calculate_new_settings (-140) 40 0 (some 95)) = 0 ∨
    eff (calculate_new_settings (-140) 40 0 (some 95)) = effective_current 40 0 :=
  ((socGate_exclusive (-140) 40 0 95).1 (by decide) (by decide)).1

/-- C4 counterexample: a desired feed inside the deadband does NOT always
yield `(0, 0)`.  With limits `(0, 40)` and grid -20 W the post-gate,
post-clamp desired feed is 20 (inside the 30 W deadband), yet the result is
`(0, 40)`: the deadband snaps the desired feed to 0 but the subsequent
hysteresis step (|0 - 40| = 40 < 50) restores `effectiveCurrent = 40`. -/
theorem deadband_cex :
    iabs (clamp_feed (soc_gate (some 50) (effective_current 0 40 + (-20)))) <
      POWER_FEED_MIN_THRESHOLD ∧
    calculate_new_settings (-20) 0 40 (some 50) = (0, 40) := by decide

/-- C4 amended: when the post-gate, post-clamp desired feed is inside the
deadband, the result is `(0, 0)` provided `|effectiveCurrent|` is at least
the hysteresis threshold or zero; otherwise the hysteresis step restores
`effectiveCurrent` and the result encodes exactly the current feed. -/
theorem deadband_amended (g i o : Int) (lvl : Option Int)
    (h : iabs (clamp_feed (soc_gate lvl (effective_current i o + g))) <
      POWER_FEED_MIN_THRESHOLD) :
    (POWER_FEED_MIN_DELTA ≤ iabs (effective_current i o) ∨
        effective_current i o = 0 →
      calculate_new_settings g i o lvl = (0, 0)) ∧
    (iabs (effective_current i o) < POWER_FEED_MIN_DELTA →
      eff (calculate_new_settings g i o lvl) = effective_current i o) := by
  have hdz : deadband (clamp_feed (soc_gate lvl (effective_current i o + g))) = 0 := by
    rw [deadband, if_pos h]
  have hcalc := calc_after_desired_zero g i o lvl hdz
  rw [hcalc, hysteresis_from_zero]
  constructor
  · rintro (hge | hzero)
    · rw [if_neg (by omega)]; rfl
    · rw [hzero]
      split_ifs <;> rfl
  · intro hlt
    rw [if_pos hlt, eff_decompose]

/-- Witness for `deadband_amended` at the counterexample input: the small
current feed 40 W is kept. -/
theorem deadband_amended_witness :
    eff (calculate_new_settings (-20) 0 40 (some 50)) = effective_current 0 40 :=
  (deadband_amended (-20) 0 40 (some 50) (by decide)).2 (by decide)

/-- C5: when the feed entering the hysteresis step (after SoC gating,
clamping and deadband, in the source's order) differs from
`effectiveCurrent` by less than `POWER_FEED_MIN_DELTA`, the result keeps
`effectiveCurrent` unchanged: the returned pair encodes exactly the current
effective feed. -/
theorem hysteresis_keeps_current (g i o : Int) (lvl : Option Int)
    (h : iabs (deadband (clamp_feed (soc_gate lvl (effective_current i o + g))) -
      effective_current i o) < POWER_FEED_MIN_DELTA) :
    eff (calculate_new_settings g i o lvl) = effective_current i o ∧
    calculate_new_settings g i o lvl = decompose (effective_current i o) := by
  have hh : hysteresis (effective_current i o)
      (deadband (clamp_feed (soc_gate lvl (effective_current i o + g)))) =
      effective_current i o := by
    rw [hysteresis, if_pos h]
  have hcalc : calculate_new_settings g i o lvl =
      decompose (effective_current i o) := by
    simp only [calculate_new_settings]
    rw [hh]
  exact ⟨by rw [hcalc, eff_decompose], hcalc⟩

/-- Witness for `hysteresis_keeps_current`: grid +20 W with a 100 W
discharge in place; the 20 W delta is below the 50 W threshold and the
100 W discharge is kept. -/
theorem hysteresis_keeps_current_witness :
    eff (calculate_new_settings 20 0 100 (some 50)) = effective_current 0 100 :=
  (hysteresis_keeps_current 20 0 100 (some 50) (by decide)).1

/-- C7: for inputs with `currentInput × currentOutput = 0`, the returned
pair never has both components nonzero: one component is 0 and the other is
nonnegative. -/
theorem never_both_nonzero (g i o : Int) (lvl : Option Int) (h : i * o = 0) :
    ((calculate_new_settings g i o lvl).1 = 0 ∧
      0 ≤ (calculate_new_settings g i o lvl).2) ∨
    ((calculate_new_settings g i o lvl).2 = 0 ∧
      0 ≤ (calculate_new_settings g i o lvl).1) := by
  have hd : ∀ d : Int, ((decompose d).1 = 0 ∧ 0 ≤ (decompose d).2) ∨
      ((decompose d).2 = 0 ∧ 0 ≤ (decompose d).1) := by
    intro d
    simp only [decompose, iabs]
    split_ifs <;> simp <;> omega
  simp only [calculate_new_settings]
  exact hd _

/-- Witness for `never_both_nonzero` at the end-to-end scenario input. -/
theorem never_both_nonzero_witness :
    ((calculate_new_settings 250 0 100 (some 50)).1 = 0 ∧
      0 ≤ (calculate_new_settings 250 0 100 (some 50)).2) ∨
    ((calculate_new_settings 250 0 100 (some 50)).2 = 0 ∧
      0 ≤ (calculate_new_settings 250 0 100 (some 50)).1) :=
  never_both_nonzero 250 0 100 (some 50) (by decide)

/-- C2 counterexample: the setpoint sequence `[-300, -300, 0, 0]` produces
exactly TWO device writes in total — the initial discharge command and a
single stop command — not two writes for the stop.  The stop write zeroes
both limits and OMITS `acMode` (the device keeps Output mode by
partial-update semantics); no `acMode = Idle` write follows, because the
second zero tick is skipped by the unchanged-value check. -/
theorem twoPhaseStop_cex :
    run_sequence none 0 [-300, -300, 0, 0] =
      [⟨some 2, 0, 300, 1⟩, ⟨none, 0, 0, 1⟩] := by decide

/-- C2 amended: from a discharging state, a zero setpoint produces exactly
one device write `{inputLimit = 0, outputLimit = 0, smartMode = 1}` without
an `acMode` key, and a repeated zero produces no further write; the
`acMode = Idle (0)` write is produced only by the separate standby sequence
(`set_standby_mode`: send 1 W, then 0 W — the second write carries
`acMode = 0` because `previous_power = 1`). -/
theorem twoPhaseStop_amended :
    run_sequence (some (-300)) 0 [0, 0] = [⟨none, 0, 0, 1⟩] ∧
    run_sequence (some 0) 0 [1, 0] =
      [⟨none, 0, 0, 1⟩, ⟨some 0, 0, 0, 1⟩] := by decide

/-! ### Schedule resolution lemmas -/

lemma pick_max_mem (x : Int × Int) (xs : List (Int × Int)) :
    pick_max x xs ∈ x :: xs := by
  induction xs generalizing x with
  | nil => simp [pick_max]
  | cons e xs ih =>
    have step : pick_max x (e :: xs) = pick_max (if x.1 < e.1 then e else x) xs := rfl
    rw [step]
    by_cases hc : x.1 < e.1
    · rw [if_pos hc]
      have := ih e
      simp only [List.mem_cons] at this ⊢
      tauto
    · rw [if_neg hc]
      have := ih x
      simp only [List.mem_cons] at this ⊢
      tauto

lemma pick_max_ge (x : Int × Int) (xs : List (Int × Int)) :
    ∀ p ∈ x :: xs, p.1 ≤ (pick_max x xs).1 := by
  induction xs generalizing x with
  | nil =>
    intro p hp
    simp only [List.mem_singleton] at hp
    subst hp
    simp [pick_max]
  | cons e xs ih =>
    intro p hp
    have step : pick_max x (e :: xs) = pick_max (if x.1 < e.1 then e else x) xs := rfl
    rw [step]
    have hy : x.1 ≤ (if x.1 < e.1 then e else x).1 ∧
        e.1 ≤ (if x.1 < e.1 then e else x).1 := by
      split_ifs <;> constructor <;> omega
    have hself := ih (if x.1 < e.1 then e else x) _ (List.mem_cons_self _ _)
    rcases List.mem_cons.mp hp with rfl | hp'
    · exact le_trans hy.1 hself
    rcases List.mem_cons.mp hp' with rfl | hp''
    · exact le_trans hy.2 hself
    · exact ih _ p (List.mem_cons_of_mem _ hp'')

/-- C6: `find_current_schedule_value` returns the value of the entry with
the maximum time key among entries whose key is at most `now`, and `none`
when no entry qualifies; in particular for
`[(1000, 100), (1800, -200)]` it resolves to `-200` at 1811 and to `none`
at 0959. -/
theorem schedule_resolves_max (entries : List (Int × Int)) (now k v : Int)
    (hmem : (k, v) ∈ entries) (hk : k ≤ now)
    (hmax : ∀ p ∈ entries, p.1 ≤ now → p.1 ≤ k)
    (huniq : ∀ p ∈ entries, p.1 = k → p.2 = v)
    (entries2 : List (Int × Int)) (now2 : Int)
    (hnone : ∀ p ∈ entries2, now2 < p.1) :
    find_current_schedule_value entries now = some v ∧
    find_current_schedule_value entries2 now2 = none ∧
    find_current_schedule_value [(1000, 100), (1800, -200)] 1811 = some (-200) ∧
    find_current_schedule_value [(1000, 100), (1800, -200)] 959 = none := by
  refine ⟨?_, ?_, by decide, by decide⟩
  · have hmemf : (k, v) ∈ entries.filter (fun e => e.1 ≤ now) := by
      simp only [List.mem_filter, decide_eq_true_eq]
      exact ⟨hmem, hk⟩
    cases hval : entries.filter (fun e => e.1 ≤ now) with
    | nil =>
      rw [hval] at hmemf
      simp at hmemf
    | cons x xs =>
      have hkv : (k, v) ∈ x :: xs := hval ▸ hmemf
      have hpm : pick_max x xs ∈ entries.filter (fun e => e.1 ≤ now) :=
        hval ▸ pick_max_mem x xs
      have hin : pick_max x xs ∈ entries ∧ (pick_max x xs).1 ≤ now := by
        simpa only [List.mem_filter, decide_eq_true_eq] using hpm
      have hkey : (pick_max x xs).1 = k :=
        le_antisymm (hmax _ hin.1 hin.2) (pick_max_ge x xs (k, v) hkv)
      have hv : (pick_max x xs).2 = v := huniq _ hin.1 hkey
      simp only [find_current_schedule_value, hval, hv]
  · have hfil : entries2.filter (fun e => e.1 ≤ now2) = [] := by
      rw [List.filter_eq_nil]
      intro p hp
      simpa using (hnone p hp).not_le
    simp only [find_current_schedule_value, hfil]

/-- Witness for `schedule_resolves_max` at the spec's example schedule. -/
theorem schedule_resolves_max_witness :
    find_current_schedule_value [(1000, 100), (1800, -200)] 1811 = some (-200) ∧
    find_current_schedule_value [(1000, 100), (1800, -200)] 959 = none := by
  have h := schedule_resolves_max [(1000, 100), (1800, -200)] 1811 1800 (-200)
    (by decide) (by decide) (by decide) (by decide)
    [(1000, 100), (1800, -200)] 959 (by decide)
  exact ⟨h.1, h.2.1⟩

/-- C8: when the window's period changed, `_accumulate_with_boundary`
credits the old period with `lastValue × timeToBoundary` on top of its
prior total, resets the window, and starts the new period with
`lastValue × (elapsed − timeToBoundary)`, so the energy added over the call
equals `lastValue × elapsed`; concretely, 1000 W held from 13:59:30 to
14:00:30 closes the 13:00 hour window with 25/3 ≈ 8.33 Wh and restarts the
14:00 window at 25/3 ≈ 8.33 Wh. -/
theorem boundary_split (acc v : ℚ) (lp cur : Int) (tb td : ℚ)
    (hne : lp ≠ cur) (hle : tb ≤ td) :
    (accumulate_with_boundary acc v (some lp) cur tb td).2.1 =
      some (acc + v * tb) ∧
    (accumulate_with_boundary acc v (some lp) cur tb td).1 = v * (td - tb) ∧
    ((acc + v * tb) - acc) +
      (accumulate_with_boundary acc v (some lp) cur tb td).1 = v * td ∧
    accumulate_hour 0 1000 (some 13) 50370 50430 = (25/3, some (25/3), 14) := by
  have hred : accumulate_with_boundary acc v (some lp) cur tb td =
      ((if td - tb > 0 then 0 + v * (td - tb) else 0),
        some (acc + v * tb), cur) := by
    simp only [accumulate_with_boundary]
    rw [if_pos hne]
  have hnew : (accumulate_with_boundary acc v (some lp) cur tb td).1 =
      v * (td - tb) := by
    rw [hred]
    by_cases hr : td - tb > 0
    · rw [if_pos hr]
      ring
    · rw [if_neg hr]
      have hz : td - tb = 0 := le_antisymm (not_lt.mp hr) (by linarith)
      rw [hz, mul_zero]
  refine ⟨by rw [hred], hnew, by rw [hnew]; ring, ?_⟩
  norm_num [accumulate_hour, accumulate_with_boundary, hour_of,
    hour_boundary_time]

/-- Witness for `boundary_split` at the 13:59:30 → 14:00:30 crossing
(time-to-boundary 30 s = 1/120 h, elapsed 60 s = 1/60 h). -/
theorem boundary_split_witness :
    (accumulate_with_boundary 0 1000 (some 13) 14 (1/120) (1/60)).2.1 =
      some (0 + 1000 * (1/120 : ℚ)) :=
  (boundary_split 0 1000 13 14 (1/120) (1/60) (by decide) (by norm_num)).1

/-- C9: when the hourly reference is absent, or its import or export
component is 0, `accumulate_p1_reading_hourly` re-seeds the reference from
the live cumulative reading and returns early: no delta is computed and no
ledger entry is recorded. -/
theorem hourly_reseed (st : P1HourlyState) (ik ek : ℚ) (day hour : Int)
    (h : st.reference = none ∨
      ∃ ri re, st.reference = some (ri, re) ∧ (ri = 0 ∨ re = 0)) :
    (accumulate_p1_hourly st ik ek day hour).2 = none ∧
    (accumulate_p1_hourly st ik ek day hour).1.reference = some (ik, ek) ∧
    (accumulate_p1_hourly st ik ek day hour).1.lastResetHour = some hour ∧
    (accumulate_p1_hourly st ik ek day hour).1.ledger = st.ledger := by
  obtain h | ⟨ri, re, href, hzero⟩ := h
  · simp only [accumulate_p1_hourly, h]
    exact ⟨trivial, trivial, trivial, trivial⟩
  · simp only [accumulate_p1_hourly, href]
    rw [if_pos hzero]
    exact ⟨rfl, rfl, rfl, rfl⟩

/-- Witness for `hourly_reseed`: a persisted state with
`reference_import_kwh = 0` (and some prior ledger) is re-seeded by the next
live reading without recording a delta. -/
theorem hourly_reseed_witness :
    (accumulate_p1_hourly ⟨some (0, 5), some 3, [(0, 2, 1, 1)]⟩ 10 2 0 4).2 =
      none ∧
    (accumulate_p1_hourly ⟨some (0, 5), some 3, [(0, 2, 1, 1)]⟩ 10 2 0 4).1.reference =
      some (10, 2) ∧
    (accumulate_p1_hourly ⟨some (0, 5), some 3, [(0, 2, 1, 1)]⟩ 10 2 0 4).1.lastResetHour =
      some 4 ∧
    (accumulate_p1_hourly ⟨some (0, 5), some 3, [(0, 2, 1, 1)]⟩ 10 2 0 4).1.ledger =
      P1HourlyState.ledger ⟨some (0, 5), some 3, [(0, 2, 1, 1)]⟩ :=
  hourly_reseed ⟨some (0, 5), some 3, [(0, 2, 1, 1)]⟩ 10 2 0 4
    (Or.inr ⟨0, 5, rfl, Or.inl rfl⟩)

/-- C10: when the inverter read fails or the returned properties lack
`electricLevel`, `check_battery_limits` sets `limit_state = 0`, and with
that state the veto in `_send_power_feed` leaves every setpoint unchanged:
the guard fails open. -/
theorem limit_guard_fails_open (r : Option (Option Int)) (pf : Int)
    (h : r = none ∨ r = some none) :
    check_battery_limits r = 0 ∧
    limit_guard (check_battery_limits r) pf = pf := by
  have hzero : check_battery_limits r = 0 := by
    obtain rfl | rfl := h <;> rfl
  refine ⟨hzero, ?_⟩
  rw [hzero]
  simp only [limit_guard]
  split_ifs <;> simp_all

/-- Witness for `limit_guard_fails_open`: a failed read lets a 500 W charge
command through the guard. -/
theorem limit_guard_fails_open_witness :
    check_battery_limits none = 0 ∧
    limit_guard (check_battery_limits none) 500 = 500 :=
  limit_guard_fails_open none 500 (Or.inl rfl)

end Zendure
